import Mathlib

/-!
# Verification of the pydiceplot data-to-geometry pipeline

Shallow embedding of the layout-computation core of `pydiceplot`
(`pydiceplot/plots/backends/_utils.py`, `pydiceplot/plots/_utils.py` and the
backend `plot_dice` axis-switch code), together with proofs and refutations of
the specified properties.

Category labels are modelled as natural numbers; an observation-table row
carries the primary (`a`), secondary (`b`), tertiary (`c`) category values and
the group label (`g`).  Coordinates are rationals.
-/

namespace PyDicePlot

/-- One row of the observation table: primary category `a`, secondary
category `b`, tertiary category `c`, group label `g`. -/
structure Row where
  a : Nat
  b : Nat
  c : Nat
  g : Nat
deriving DecidableEq, Repr

/-- First-seen-order deduplication, the semantics of pandas `Series.unique`
and of `drop_duplicates` (default `keep="first"`). -/
def uniqueFirst {α : Type} [DecidableEq α] (l : List α) : List α :=
  l.foldl (fun acc x => if x ∈ acc then acc else acc ++ [x]) []

/-- Sorted distinct values, the semantics of `sorted(series.unique())` used by
`prepare_data` to build the initial category orderings. -/
def sortedUnique (l : List Nat) : List Nat :=
  (uniqueFirst l).mergeSort (fun x y => decide (x ≤ y))

/-- The rational 0.2, written with an explicit numerator and denominator
(`Rat.mk'` literals are kernel-reducible, unlike `ℚ` division or scientific
literals). -/
def q02 : ℚ := Rat.mk' 1 5

/-- The rational 0.3. -/
def q03 : ℚ := Rat.mk' 3 10

/-- The rational 0.4 (the box half-width). -/
def q04 : ℚ := Rat.mk' 2 5

/-- The per-cardinality offset lookup table `positions_dict` of
`calculate_var_positions` in `pydiceplot/plots/backends/_utils.py`
(lines 114-121); 0.2 is `q02`, 0.3 is `q03`.  `none` models the `KeyError` a
missing key would raise. -/
def positionsDict : Nat → Option (List (ℚ × ℚ))
  | 1 => some [(0, 0)]
  | 2 => some [(-q02, 0), (q02, 0)]
  | 3 => some [(-q02, -q02), (0, q02), (q02, -q02)]
  | 4 => some [(-q02, -q02), (-q02, q02), (q02, -q02), (q02, q02)]
  | 5 => some [(-q02, -q02), (-q02, q02), (0, 0), (q02, -q02), (q02, q02)]
  | 6 => some [(-q02, -q03), (-q02, 0), (-q02, q03), (q02, -q03), (q02, 0), (q02, q03)]
  | _ => none

/-- `calculate_var_positions(cat_c_colors, max_dice_sides)` from
`pydiceplot/plots/backends/_utils.py`: raises `ValueError` when the number of
color-map keys exceeds `max_dice_sides`, otherwise looks the cardinality up in
`positions_dict` (a missing key raises `KeyError`) and pairs the color-map keys,
in key order, with the offsets. -/
def calculate_var_positions (catCColorKeys : List Nat) (maxDiceSides : Nat) :
    Except String (List (Nat × ℚ × ℚ)) :=
  let numVars := catCColorKeys.length
  if numVars > maxDiceSides then
    .error "ValueError: number of variables exceeds max_dice_sides"
  else
    match positionsDict numVars with
    | none => .error "KeyError: unsupported number of variables"
    | some ps => .ok (catCColorKeys.zip ps)

/-- `create_var_positions(cat_c_colors, num_vars)` from
`pydiceplot/plots/_utils.py` (lines 7-35): hard-coded offset tables for
cardinalities 3, 4, 5 and 6 only; every other cardinality raises
`ValueError("Unsupported number of variables for variable positions.")`.
Constructing the DataFrame would also fail if the key list length differed
from `num_vars`; that mismatch is modelled as an error as well. -/
def create_var_positions (catCColorKeys : List Nat) (numVars : Nat) :
    Except String (List (Nat × ℚ × ℚ)) :=
  if catCColorKeys.length ≠ numVars then
    .error "ValueError: arrays must all be same length"
  else if numVars = 3 then
    .ok (catCColorKeys.zip [(0, 0), (-q02, q02), (q02, -q02)])
  else if numVars = 4 then
    .ok (catCColorKeys.zip [(-q02, q02), (q02, q02), (-q02, -q02), (q02, -q02)])
  else if numVars = 5 then
    .ok (catCColorKeys.zip [(0, 0), (-q02, q02), (q02, q02), (-q02, -q02), (q02, -q02)])
  else if numVars = 6 then
    .ok (catCColorKeys.zip [(-q02, q02), (q02, q02), (-q02, 0), (q02, 0), (-q02, -q02), (q02, -q02)])
  else
    .error "ValueError: Unsupported number of variables for variable positions."

/-! ## Binary matrix and clustering (`create_binary_matrix`, `perform_clustering`) -/

/-- The row index of the pivot built by `create_binary_matrix`: the distinct
primary-category values in sorted order (`prepare_data` makes `cat_a` an
ordered categorical over `sorted(unique)`, and the pivot index follows the
category order).  pandas sorting is modelled by insertion sort, which agrees
with any sorting algorithm on a total key. -/
def binaryMatrixRows (t : List Row) : List Nat :=
  List.insertionSort (· ≤ ·) (uniqueFirst (t.map (·.a)))

/-- The column index of the pivot: the distinct
`(cat_b, cat_c)` combinations, one per `combined` string `b + "_" + c`. -/
def binaryMatrixCols (t : List Row) : List (Nat × Nat) :=
  uniqueFirst (t.map (fun r => (r.b, r.c)))

/-- A cell of the matrix built by `create_binary_matrix`
(`pydiceplot/plots/backends/_utils.py` lines 50-69, identical code in
`pydiceplot/plots/_utils.py` lines 37-42): the code sets `data["present"] = 1`
and takes `groupby([cat_a, cat_b, cat_c])["present"].sum()`, so the pivot cell
for row `a` and column `(b, c)` is the number of occurrences of the triple;
`fillna(0)` gives 0 for combinations never observed together, which also
equals the occurrence count. -/
def binaryMatrixCell (t : List Row) (a : Nat) (bc : Nat × Nat) : Nat :=
  t.countP (fun r => r.a == a && r.b == bc.1 && r.c == bc.2)

/-- The full matrix `binary_matrix_df.values`, row major. -/
def binaryMatrix (t : List Row) : List (List Nat) :=
  (binaryMatrixRows t).map (fun a => (binaryMatrixCols t).map (binaryMatrixCell t a))

/-- `perform_clustering` from `pydiceplot/plots/backends/_utils.py`
(lines 71-96).  The scipy pipeline `pdist` / `linkage` / `dendrogram` is
abstracted as an oracle `cluster` mapping the binary matrix and the row labels
to a dendrogram leaf order; the code reverses that leaf order (`[::-1]`).
When the matrix has at most one row the clustering branch is skipped and the
pivot row order is returned as is. -/
def perform_clustering_backend
    (cluster : List (List Nat) → List Nat → List Nat) (t : List Row) : List Nat :=
  let cellTypes := binaryMatrixRows t
  if cellTypes.length > 1 then (cluster (binaryMatrix t) cellTypes).reverse
  else cellTypes

/-- `perform_clustering` from `pydiceplot/plots/_utils.py` (lines 37-50): the
same pipeline but with no guard on the number of rows — `pdist`, `linkage` and
`dendrogram` (the `cluster` oracle) are invoked unconditionally.  (On a
single-row matrix the real `scipy.cluster.hierarchy.linkage` raises on the
empty distance matrix; the oracle abstraction makes the unconditional
invocation itself observable.) -/
def perform_clustering_plots
    (cluster : List (List Nat) → List Nat → List Nat) (t : List Row) : List Nat :=
  (cluster (binaryMatrix t) (binaryMatrixRows t)).reverse

/-! ## Box records (`prepare_box_data` / the `box_data` block of
`preprocess_dice_plot`) -/

/-- One box record produced for the rendering backend. -/
structure BoxRec where
  a : Nat
  b : Nat
  g : Nat
  xNum : Int
  yNum : Int
  xMin : ℚ
  xMax : ℚ
  yMin : ℚ
  yMax : ℚ
deriving DecidableEq, Repr

/-- `cat.codes` of a pandas ordered categorical: the index of the value in the
category list, `-1` when the value is not a category (NaN). -/
def catCode (order : List Nat) (x : Nat) : Int :=
  if x ∈ order then (order.indexOf x : Int) else -1

/-- Build the box record for one deduplicated `(cat_a, cat_b, group)` triple:
`x_num`/`y_num` are `cat.codes + 1`, the bounds are the centered box of
half-width 0.4 (`preprocess_dice_plot`, lines 202-208). -/
def mkBoxRec (aOrder bOrder : List Nat) (tr : Nat × Nat × Nat) : BoxRec :=
  let xn := catCode aOrder tr.1 + 1
  let yn := catCode bOrder tr.2.1 + 1
  { a := tr.1, b := tr.2.1, g := tr.2.2, xNum := xn, yNum := yn,
    xMin := (xn : ℚ) - q04, xMax := (xn : ℚ) + q04,
    yMin := (yn : ℚ) - q04, yMax := (yn : ℚ) + q04 }

/-- Lexicographic comparison of the `sort_values(by=[cat_a, group, cat_b])`
key: primary-category code, then group code, then secondary-category code. -/
def boxLe (gOrder : List Nat) (r s : BoxRec) : Prop :=
  r.xNum < s.xNum ∨ (r.xNum = s.xNum ∧
    (catCode gOrder r.g < catCode gOrder s.g ∨
      (catCode gOrder r.g = catCode gOrder s.g ∧ r.yNum ≤ s.yNum)))

instance (gOrder : List Nat) : DecidableRel (boxLe gOrder) := fun r s => by
  unfold boxLe; infer_instance

/-- `prepare_box_data` (`pydiceplot/plots/_utils.py` lines 71-82; the same
code appears inline in `preprocess_dice_plot`, lines 202-209):
`data[[cat_a, cat_b, group]].drop_duplicates()` — first-occurrence
deduplication of the `(cat_a, cat_b, group)` TRIPLES — then codes, the
centered bounds, and `sort_values(by=[cat_a, group, cat_b])`. -/
def prepare_box_data (t : List Row) (aOrder bOrder gOrder : List Nat) : List BoxRec :=
  List.insertionSort (boxLe gOrder)
    ((uniqueFirst (t.map (fun r => (r.a, r.b, r.g)))).map (mkBoxRec aOrder bOrder))

/-! ## Secondary axis ordering (`order_cat_b`) -/

/-- Rank of a value in an ordered category list (`cat.codes` for values known
to be categories). -/
def rankIn (order : List Nat) (x : Nat) : Nat := order.indexOf x

/-- The `sort_values(by=[group, "count", cat_b], ascending=[True, False, True])`
key order on the rows `(group, cat_b, count)` of `grouped_b`: group code
ascending (per the reversed color-map key order), count descending,
secondary-category code ascending. -/
def gbLe (gl bc : List Nat) (x y : Nat × Nat × Nat) : Prop :=
  rankIn gl x.1 < rankIn gl y.1 ∨ (rankIn gl x.1 = rankIn gl y.1 ∧
    (y.2.2 < x.2.2 ∨ (x.2.2 = y.2.2 ∧ rankIn bc x.2.1 ≤ rankIn bc y.2.1)))

instance (gl bc : List Nat) : DecidableRel (gbLe gl bc) := fun x y => by
  unfold gbLe; infer_instance

/-- `order_cat_b` from `pydiceplot/plots/_utils.py` (lines 52-58), as invoked
from `pyDicePlot/diceplot.py` where both `group` and `cat_b` are ordered
categoricals (`group` over the reversed color-map keys, `cat_b` over its
first-seen distinct values).  `groupby([group, cat_b]).size()` runs with the
pandas default `observed=False`, so the grouped frame holds one row for EVERY
pair of a group category with a secondary-category value — zero-size
combinations included.  Rows whose group value is not a color-map key become
NaN under the categorical conversion and are dropped by `groupby`; they are
counted in no cell here.  The frame is then sorted by
`[group asc, count desc, cat_b asc]` (all key triples are distinct, so the
sorting algorithm is immaterial) and the first occurrence of each
secondary-category value is kept (`unique`). -/
def order_cat_b (t : List Row) (groupColorKeys : List Nat) : List Nat :=
  let gl := groupColorKeys.reverse
  let bc := uniqueFirst (t.map (·.b))
  let rows := gl.flatMap (fun g => bc.map (fun b =>
    (g, b, t.countP (fun r => r.g == g && r.b == b))))
  uniqueFirst ((List.insertionSort (gbLe gl bc) rows).map (fun x => x.2.1))

/-- The group a secondary-category value belongs to under the uniqueness invariant of the spec: the group of its first observation. -/
def bOwnGroup (t : List Row) (b : Nat) : Nat :=
  ((t.find? (fun r => r.b == b)).map Row.g).getD 0

/-- Total occurrence count of a secondary-category value. -/
def countB (t : List Row) (b : Nat) : Nat := t.countP (fun r => r.b == b)

/-- The order on secondary-category values that the words of the spec describe
(§4.2): each value ranked by the position of its OWN group in the reversed
color-map key order, then by descending occurrence count, then by ascending
label.  Used only for comparison with `order_cat_b`. -/
def specBLe (t : List Row) (gl : List Nat) (b1 b2 : Nat) : Prop :=
  rankIn gl (bOwnGroup t b1) < rankIn gl (bOwnGroup t b2) ∨
    (rankIn gl (bOwnGroup t b1) = rankIn gl (bOwnGroup t b2) ∧
      (countB t b2 < countB t b1 ∨ (countB t b1 = countB t b2 ∧ b1 ≤ b2)))

instance (t : List Row) (gl : List Nat) : DecidableRel (specBLe t gl) := fun x y => by
  unfold specBLe; infer_instance

/-- The Secondary Axis Orderer as the spec describes it, for comparison with
the source-derived `order_cat_b`. -/
def orderCatBSpec (t : List Row) (groupColorKeys : List Nat) : List Nat :=
  List.insertionSort (specBLe t groupColorKeys.reverse) (uniqueFirst (t.map (·.b)))

/-! ## Axis switching (`plot_dice` in
`pydiceplot/plots/backends/_plotly_backend.py` lines 45-50 and
`pydiceplot/plots/backends/_matplotlib_backend.py` lines 46-51) -/

/-- pandas `DataFrame.rename(columns=m)`: every column label is mapped through
the dictionary, labels not in the dictionary are kept; nothing prevents two
labels from colliding. -/
def applyRename (m : List (String × String)) (c : String) : String :=
  match m.find? (fun p => p.1 == c) with
  | some p => p.2
  | none => c

/-- The `plot_data.rename` of the axis switch: swaps `x_num`/`y_num` and
`x_pos`/`y_pos`. -/
def switchPlotCols (cols : List String) : List String :=
  cols.map (applyRename
    [("x_num", "y_num"), ("y_num", "x_num"), ("x_pos", "y_pos"), ("y_pos", "x_pos")])

/-- The `box_data.rename` of the axis switch: swaps `x_num`/`y_num` but maps
`x_min` to `y_min` and `x_max` to `y_max` with NO reverse entries for
`y_min`/`y_max`. -/
def switchBoxCols (cols : List String) : List String :=
  cols.map (applyRename
    [("x_num", "y_num"), ("y_num", "x_num"), ("x_min", "y_min"), ("x_max", "y_max")])

/-- The column labels of `box_data` as produced by `preprocess_dice_plot`. -/
def diceBoxColumns : List String :=
  ["cat_a", "cat_b", "group", "x_num", "y_num", "x_min", "x_max", "y_min", "y_max"]

/-- The geometry column labels of `plot_data` as produced by
`preprocess_dice_plot` (after the merge with `var_positions`). -/
def dicePlotColumns : List String :=
  ["cat_a", "cat_b", "cat_c", "group", "var", "x_offset", "y_offset",
   "x_num", "y_num", "x_pos", "y_pos"]

/-! ## Frame mutation (`prepare_data`, `create_binary_matrix`) -/

/-- A pandas DataFrame as seen by the caller: column labels, the observation
rows, and which columns have been converted in place to ordered categoricals
(with their category lists). -/
structure DFrame where
  cols : List String
  rows : List Row
  catCols : List (String × List Nat)
deriving DecidableEq, Repr

/-- `data[name] = pd.Categorical(data[name], categories=cats, ordered=True)`:
records (or overwrites) the categorical dtype of a column, in place. -/
def setCategorical (cc : List (String × List Nat)) (name : String) (cats : List Nat) :
    List (String × List Nat) :=
  if cc.any (fun p => p.1 == name) then
    cc.map (fun p => if p.1 == name then (name, cats) else p)
  else cc ++ [(name, cats)]

/-- The effect of `prepare_data` (`pydiceplot/plots/backends/_utils.py`
lines 24-43) on the frame of the CALLER: the four category columns are rewritten
in place to ordered categorical dtype (`cat_a`/`cat_b` over their sorted
distinct values, `cat_c`/`group` over the color-map key orders).  Row values
are untouched. -/
def prepare_data_mut (d : DFrame) (aName bName cName gName : String)
    (cKeys gKeys : List Nat) : DFrame :=
  { d with catCols :=
      (setCategorical
        (setCategorical
          (setCategorical
            (setCategorical d.catCols aName (sortedUnique (d.rows.map (·.a))))
            bName (sortedUnique (d.rows.map (·.b))))
          cName cKeys)
        gName gKeys) }

/-- The effect of `data["present"] = 1` inside `create_binary_matrix`
(`pydiceplot/plots/backends/_utils.py` line 61) on the frame of the caller: a
`present` column is added (overwritten in place when already there). -/
def add_present_column (d : DFrame) : DFrame :=
  { d with cols := if "present" ∈ d.cols then d.cols else d.cols ++ ["present"] }

/-- The cumulative in-place effect of one `preprocess_dice_plot` invocation on
the frame the caller passed in: `prepare_data` then `create_binary_matrix`
(reached through `perform_clustering`) both mutate `data` itself. -/
def preprocess_frame_effect (d : DFrame) (aName bName cName gName : String)
    (cKeys gKeys : List Nat) : DFrame :=
  add_present_column (prepare_data_mut d aName bName cName gName cKeys gKeys)

/-! ## Quantitative Encoder (domino plot)

The domino preprocessing lives in `_domino_utils.py`, which is imported by
both backends but absent from the repository snapshot; the encoder is
modelled from the spec (§4.5). -/

/-- Clamp into the unit interval. -/
def clamp01 (x : ℚ) : ℚ := max 0 (min 1 x)

/-- Modelled from the spec: p-values at or below zero are "undefined for
-log10" and are clamped to the smallest representable positive value `eps`
(in floating point no positive value below `eps` exists, so the clamp is a
two-sided `max`). -/
def clampPos (eps p : ℚ) : ℚ := max p eps

/-- Largest element of a list (0 for the empty list). -/
def listMax : List ℚ → ℚ
  | [] => 0
  | x :: xs => xs.foldl max x

/-- Smallest element of a list (0 for the empty list). -/
def listMin : List ℚ → ℚ
  | [] => 0
  | x :: xs => xs.foldl min x

/-- Modelled from the spec: normalize a value into [0,1] across the observed
range `[lo, hi]`; with a degenerate observed range every value counts as
maximally significant. -/
def norm01 (lo hi v : ℚ) : ℚ := if hi ≤ lo then 1 else clamp01 ((v - lo) / (hi - lo))

/-- Modelled from the spec: the size mapping of the Quantitative Encoder
(`preprocess_domino_plot` of the missing `_domino_utils.py`).  §4.5: normalize
`-log10(p)` to [0,1] across the observed range of the dataset `ps`, then
linearly interpolate into `[minS, maxS]`; p-values ≤ 0 clamp to the smallest
representable positive value.  The transform `-log10` is abstracted as a
parameter `nl`, used only through its antitonicity. -/
def dominoSize (nl : ℚ → ℚ) (eps minS maxS : ℚ) (ps : List ℚ) (p : ℚ) : ℚ :=
  let vals := ps.map (fun q => nl (clampPos eps q))
  minS + (maxS - minS) * norm01 (listMin vals) (listMax vals) (nl (clampPos eps p))

/-! ## Basic lemmas about `uniqueFirst` -/

theorem mem_foldl_uniq {α : Type} [DecidableEq α] (l : List α) (acc : List α) (x : α) :
    x ∈ l.foldl (fun acc y => if y ∈ acc then acc else acc ++ [y]) acc ↔ x ∈ acc ∨ x ∈ l := by
  induction l generalizing acc with
  | nil => simp
  | cons y ys ih =>
    simp only [List.foldl_cons]
    by_cases h : y ∈ acc
    · rw [if_pos h, ih]
      constructor
      · rintro (hx | hx)
        · exact Or.inl hx
        · exact Or.inr (List.mem_cons_of_mem _ hx)
      · rintro (hx | hx)
        · exact Or.inl hx
        · rcases List.mem_cons.1 hx with rfl | hx
          · exact Or.inl h
          · exact Or.inr hx
    · rw [if_neg h, ih]
      simp [List.mem_append, List.mem_cons, or_assoc]

theorem nodup_foldl_uniq {α : Type} [DecidableEq α] (l : List α) (acc : List α)
    (hacc : acc.Nodup) :
    (l.foldl (fun acc y => if y ∈ acc then acc else acc ++ [y]) acc).Nodup := by
  induction l generalizing acc with
  | nil => simpa
  | cons y ys ih =>
    simp only [List.foldl_cons]
    by_cases h : y ∈ acc
    · rw [if_pos h]; exact ih _ hacc
    · rw [if_neg h]
      refine ih _ ?_
      rw [← List.concat_eq_append]
      exact hacc.concat h

theorem uniqueFirst_mem {α : Type} [DecidableEq α] (l : List α) (x : α) :
    x ∈ uniqueFirst l ↔ x ∈ l := by
  unfold uniqueFirst
  rw [mem_foldl_uniq]
  simp

theorem uniqueFirst_nodup {α : Type} [DecidableEq α] (l : List α) :
    (uniqueFirst l).Nodup :=
  nodup_foldl_uniq l [] List.nodup_nil

theorem count_uniqueFirst {α : Type} [DecidableEq α] (l : List α) (y : α) :
    (uniqueFirst l).count y = if y ∈ l then 1 else 0 := by
  by_cases h : y ∈ l
  · rw [if_pos h]
    exact List.count_eq_one_of_mem (uniqueFirst_nodup l) ((uniqueFirst_mem l y).2 h)
  · rw [if_neg h]
    exact List.count_eq_zero.2 (fun hm => h ((uniqueFirst_mem l y).1 hm))

/-! ## C1: box records -/

theorem countP_nodup_single {α : Type} [DecidableEq α] (p : α → Bool) (y : α)
    (hp : ∀ x, p x = true ↔ x = y) (l : List α) (hl : l.Nodup) :
    l.countP p = if y ∈ l then 1 else 0 := by
  induction l with
  | nil => simp
  | cons x xs ih =>
    rcases List.nodup_cons.1 hl with ⟨hx, hxs⟩
    rw [List.countP_cons, ih hxs]
    by_cases hxy : x = y
    · subst hxy
      rw [if_neg hx, if_pos (List.mem_cons_self ..)]
      simp [(hp x).2 rfl]
    · have hpx : ¬ p x = true := fun h => hxy ((hp x).1 h)
      have hyx : ¬ y = x := fun h => hxy h.symm
      simp [hpx, List.mem_cons, hyx]

/-- C1 counterexample: a table in which the secondary category 1 is observed
with the two groups 1 and 2 produces TWO box records for the single present
(primary, secondary) pair (1, 1) — not one record carrying the first-seen
group. -/
theorem box_records_pair_duplicated :
    (∃ r ∈ ([⟨1, 1, 1, 1⟩, ⟨1, 1, 1, 2⟩] : List Row), r.a = 1 ∧ r.b = 1) ∧
    (prepare_box_data [⟨1, 1, 1, 1⟩, ⟨1, 1, 1, 2⟩] [1] [1] [1, 2]).countP
      (fun r => r.a == 1 && r.b == 1) = 2 ∧
    ¬ (prepare_box_data [⟨1, 1, 1, 1⟩, ⟨1, 1, 1, 2⟩] [1] [1] [1, 2]).countP
      (fun r => r.a == 1 && r.b == 1) = 1 := by
  decide

/-- C1 (amended): the dice-plot preprocessing produces exactly one box record
per distinct (primary, secondary, GROUP) triple present in the table — so a
(primary, secondary) pair whose secondary category is observed with several
group labels gets one box record per observed group, not a single record with
the first-seen group. -/
theorem box_records_one_per_triple (t : List Row) (aO bO gO : List Nat) (a b g : Nat) :
    (prepare_box_data t aO bO gO).countP (fun r => r.a == a && r.b == b && r.g == g)
      = if (a, b, g) ∈ t.map (fun r => (r.a, r.b, r.g)) then 1 else 0 := by
  unfold prepare_box_data
  rw [(List.perm_insertionSort (boxLe gO) _).countP_eq _]
  rw [List.countP_map]
  have h := countP_nodup_single
    ((fun r : BoxRec => r.a == a && r.b == b && r.g == g) ∘ mkBoxRec aO bO) (a, b, g)
    (by
      intro tr
      obtain ⟨x, y, z⟩ := tr
      simp [mkBoxRec, Prod.ext_iff, and_assoc])
    (uniqueFirst (t.map fun r => (r.a, r.b, r.g))) (uniqueFirst_nodup _)
  rw [h]
  simp [uniqueFirst_mem]

/-! ## C2: axis switch -/

/-- C2: the axis-switch transform is NOT involutive and does not exchange the
box-bound fields.  The `plot_data` rename does swap `x_num`/`y_num` and
`x_pos`/`y_pos` (first conjunct), but the `box_data` rename maps `x_min` to
`y_min` and `x_max` to `y_max` with no reverse entries: after one switch the
box frame has no `x_min`/`x_max` column and two `y_min` (and two `y_max`)
columns, and a second switch does not restore the original column labels.
(The rendering loops read `row["x_min"]`, so a switched plot cannot even be
drawn.) -/
theorem switch_box_rename_not_involutive :
    switchPlotCols (switchPlotCols dicePlotColumns) = dicePlotColumns ∧
    switchBoxCols (switchBoxCols diceBoxColumns) ≠ diceBoxColumns ∧
    "x_min" ∉ switchBoxCols diceBoxColumns ∧
    "x_max" ∉ switchBoxCols diceBoxColumns ∧
    (switchBoxCols diceBoxColumns).count "y_min" = 2 ∧
    (switchBoxCols diceBoxColumns).count "y_max" = 2 := by
  decide

/-! ## C3: the "binary" matrix -/

/-- C3: `create_binary_matrix` sums the `present` indicator instead of taking
a maximum, so a duplicated (primary, secondary, tertiary) triple yields a
matrix cell of 2 — the matrix is an occurrence-count matrix, not the binary
presence matrix its own docstring ("Creates a binary matrix") and the claim
describe. -/
theorem binary_matrix_cell_counts_duplicates :
    binaryMatrixCell [⟨1, 1, 1, 0⟩, ⟨1, 1, 1, 0⟩, ⟨2, 1, 1, 0⟩] 1 (1, 1) = 2 ∧
    1 ∈ binaryMatrixRows [⟨1, 1, 1, 0⟩, ⟨1, 1, 1, 0⟩, ⟨2, 1, 1, 0⟩] ∧
    (1, 1) ∈ binaryMatrixCols [⟨1, 1, 1, 0⟩, ⟨1, 1, 1, 0⟩, ⟨2, 1, 1, 0⟩] ∧
    ¬ binaryMatrixCell [⟨1, 1, 1, 0⟩, ⟨1, 1, 1, 0⟩, ⟨2, 1, 1, 0⟩] 1 (1, 1) = 1 := by
  decide

/-! ## C4: the four-offset layout -/

/-- C4 counterexample: for a 4-key color map the assigner used by
`preprocess_dice_plot` (`calculate_var_positions`) does NOT return the
claimed layout [(-0.2,0.2),(0.2,0.2),(-0.2,-0.2),(0.2,-0.2)]; it returns the
same four offsets in the order [(-0.2,-0.2),(-0.2,0.2),(0.2,-0.2),(0.2,0.2)]. -/
theorem calc_positions_four_counterexample :
    calculate_var_positions [1, 2, 3, 4] 6
      = .ok [(1, -q02, -q02), (2, -q02, q02), (3, q02, -q02), (4, q02, q02)] ∧
    ([(1, -q02, -q02), (2, -q02, q02), (3, q02, -q02), (4, q02, q02)] :
        List (Nat × ℚ × ℚ))
      ≠ [(1, -q02, q02), (2, q02, q02), (3, -q02, -q02), (4, q02, -q02)] :=
  ⟨rfl, by decide⟩

/-- C4 (amended): for every color map with exactly 4 keys,
`calculate_var_positions` (used by the dice-plot pipeline) assigns, in
color-map key order, the offsets [(-0.2,-0.2),(-0.2,0.2),(0.2,-0.2),(0.2,0.2)],
while the variant `create_var_positions` in `pydiceplot/plots/_utils.py`
returns the claimed layout [(-0.2,0.2),(0.2,0.2),(-0.2,-0.2),(0.2,-0.2)]. -/
theorem var_positions_four_layouts (keys : List Nat) (h : keys.length = 4) :
    calculate_var_positions keys 6
        = .ok (keys.zip [(-q02, -q02), (-q02, q02), (q02, -q02), (q02, q02)]) ∧
    create_var_positions keys 4
        = .ok (keys.zip [(-q02, q02), (q02, q02), (-q02, -q02), (q02, -q02)]) := by
  unfold calculate_var_positions create_var_positions
  simp [h, positionsDict]

/-- C4 witness: the amended statement at the concrete 4-key map [1,2,3,4]. -/
theorem var_positions_four_layouts_witness :
    calculate_var_positions [1, 2, 3, 4] 6
        = .ok [(1, -q02, -q02), (2, -q02, q02), (3, q02, -q02), (4, q02, q02)] ∧
    create_var_positions [1, 2, 3, 4] 4
        = .ok [(1, -q02, q02), (2, q02, q02), (3, -q02, -q02), (4, q02, -q02)] :=
  var_positions_four_layouts [1, 2, 3, 4] rfl

/-! ## C5: supported cardinalities -/

/-- C5 counterexample: the Sub-cell Position Assigner variant
`create_var_positions` raises ("Unsupported number of variables") for
cardinality 2, which the claim says must succeed; the backends assigner
`calculate_var_positions` does succeed there. -/
theorem create_positions_two_raises :
    (create_var_positions [1, 2] 2).isOk = false ∧
    (calculate_var_positions [1, 2] 6).isOk = true := by
  decide

/-- C5 (amended): `calculate_var_positions` (with the default
`max_dice_sides = 6`) succeeds exactly for cardinalities 1-6 and fails for
every cardinality outside that set (`ValueError` above 6, `KeyError` at 0),
while `create_var_positions` succeeds exactly for cardinalities 3-6 and
raises for 1 and 2 as well. -/
theorem var_positions_supported_cardinalities (keys : List Nat) :
    ((calculate_var_positions keys 6).isOk = true ↔
      1 ≤ keys.length ∧ keys.length ≤ 6) ∧
    ((create_var_positions keys keys.length).isOk = true ↔
      3 ≤ keys.length ∧ keys.length ≤ 6) := by
  constructor
  · unfold calculate_var_positions
    rcases hn : keys.length with _ | _ | _ | _ | _ | _ | _ | m <;>
      simp [positionsDict, Except.isOk, Except.toBool]
  · unfold create_var_positions
    rcases hn : keys.length with _ | _ | _ | _ | _ | _ | _ | m <;>
      simp [Except.isOk, Except.toBool]

/-! ## C6: clustering skipped below two rows -/

/-- C6 counterexample: the `perform_clustering` of
`pydiceplot/plots/_utils.py` has no row-count guard — on a table with a
single distinct primary-category value (label 5) its output is the reversed
dendrogram leaf order produced by the scipy pipeline (the `cluster` oracle),
not the label itself: the clustering routine IS invoked.  (The real scipy
`linkage` raises on the empty distance matrix of one observation.) -/
theorem plots_clustering_invoked_single_row :
    perform_clustering_plots (fun _ _ => [99]) [⟨5, 1, 1, 1⟩] = [99] ∧
    perform_clustering_plots (fun _ _ => [77]) [⟨5, 1, 1, 1⟩] = [77] ∧
    ([99] : List Nat) ≠ [5] := by
  decide

/-- C6 (amended): the backends implementation
(`pydiceplot/plots/backends/_utils.py`) does skip clustering when the table
has fewer than 2 distinct primary-category values: it returns the natural
(sorted) pivot row order, and its output is independent of the clustering
routine.  The `pydiceplot/plots/_utils.py` implementation invokes clustering
unconditionally. -/
theorem clustering_skipped_below_two_rows
    (cluster cluster2 : List (List Nat) → List Nat → List Nat) (t : List Row)
    (h : (uniqueFirst (t.map (·.a))).length < 2) :
    perform_clustering_backend cluster t = binaryMatrixRows t ∧
    perform_clustering_backend cluster t = perform_clustering_backend cluster2 t := by
  have hlen : ¬ (binaryMatrixRows t).length > 1 := by
    unfold binaryMatrixRows
    have hp := (List.perm_insertionSort (· ≤ ·) (uniqueFirst (t.map (·.a)))).length_eq
    omega
  have key : ∀ c : List (List Nat) → List Nat → List Nat,
      perform_clustering_backend c t = binaryMatrixRows t := by
    intro c
    simp only [perform_clustering_backend]
    rw [if_neg hlen]
  exact ⟨key cluster, (key cluster).trans (key cluster2).symm⟩

/-- C6 witness: a table whose rows all carry the primary-category value 5. -/
theorem clustering_skipped_below_two_rows_witness :
    perform_clustering_backend (fun _ _ => [99]) [⟨5, 1, 1, 1⟩, ⟨5, 2, 1, 1⟩]
        = binaryMatrixRows [⟨5, 1, 1, 1⟩, ⟨5, 2, 1, 1⟩] ∧
    perform_clustering_backend (fun _ _ => [99]) [⟨5, 1, 1, 1⟩, ⟨5, 2, 1, 1⟩]
        = perform_clustering_backend (fun _ _ => [77]) [⟨5, 1, 1, 1⟩, ⟨5, 2, 1, 1⟩] :=
  clustering_skipped_below_two_rows _ _ _ (by decide)

/-! ## C7: secondary axis ordering -/

/-- A table with secondary value 1 in group 1 (5 occurrences), secondary
value 2 in group 2 (1 occurrence), secondary value 3 in group 1
(9 occurrences). -/
def c7Table : List Row :=
  List.replicate 5 ⟨0, 1, 0, 1⟩ ++ [⟨0, 2, 0, 2⟩] ++ List.replicate 9 ⟨0, 3, 0, 1⟩

/-- C7: `order_cat_b` does not implement the claimed triple-key order.
With group color keys [1, 2] (reversed ranking [2, 1]) the claimed order
ranks value 2 under its group 2 first, then values 3 and 1 under group 1 by
descending count: [2, 3, 1].  The `groupby(observed=False)` of the code emits
zero-count rows pairing EVERY secondary value with EVERY group, so after
sorting, all secondary values already appear inside the block of the
last-declared group and `unique` returns [2, 1, 3]: values not in the
last-declared group are ordered by their zero-count tie-break, ignoring their
own group and their counts. -/
theorem order_cat_b_zero_count_bug :
    order_cat_b c7Table [1, 2] = [2, 1, 3] ∧
    orderCatBSpec c7Table [1, 2] = [2, 3, 1] ∧
    order_cat_b c7Table [1, 2] ≠ orderCatBSpec c7Table [1, 2] := by
  decide

/-! ## C8: offset distinctness and bounds -/

/-- C8 counterexample: in the six-sided layout the offset (-0.2, -0.3) has
squared Euclidean magnitude 0.04 + 0.09 = 0.13 > 0.09 = 0.3², i.e. magnitude
√0.13 ≈ 0.361 > 0.3, so "each offset has magnitude at most 0.3" fails at
cardinality 6. -/
theorem positions_six_magnitude_counterexample :
    positionsDict 6
      = some [(-q02, -q03), (-q02, 0), (-q02, q03), (q02, -q03), (q02, 0), (q02, q03)] ∧
    ((-q02) * (-q02) + (-q03) * (-q03) > q03 * q03) :=
  ⟨rfl, by unfold q02 q03; norm_num [Rat.mk'_eq_divInt, Rat.divInt_eq_div]⟩

/-- C8 (amended): for every supported cardinality 1-6 the offsets are
pairwise distinct and each COORDINATE has absolute value at most 0.3 (the
Euclidean magnitude however reaches √0.13 ≈ 0.361 at cardinality 6). -/
theorem positions_distinct_and_coordinate_bounded (n : Nat) (ps : List (ℚ × ℚ))
    (h1 : 1 ≤ n) (h6 : n ≤ 6) (hps : positionsDict n = some ps) :
    ps.Pairwise (· ≠ ·) ∧
    ∀ q ∈ ps, -q03 ≤ q.1 ∧ q.1 ≤ q03 ∧ -q03 ≤ q.2 ∧ q.2 ≤ q03 := by
  interval_cases n <;> (simp only [positionsDict] at hps; cases hps; decide)

/-- C8 witness: the amended statement at cardinality 6. -/
theorem positions_distinct_and_coordinate_bounded_witness :
    ([(-q02, -q03), (-q02, 0), (-q02, q03), (q02, -q03), (q02, 0), (q02, q03)] :
        List (ℚ × ℚ)).Pairwise (· ≠ ·) ∧
    ∀ q ∈ ([(-q02, -q03), (-q02, 0), (-q02, q03), (q02, -q03), (q02, 0), (q02, q03)] :
        List (ℚ × ℚ)),
      -q03 ≤ q.1 ∧ q.1 ≤ q03 ∧ -q03 ≤ q.2 ∧ q.2 ≤ q03 :=
  positions_distinct_and_coordinate_bounded 6 _ (by decide) (by decide) rfl

/-! ## C10: frame mutation -/

/-- C10 counterexample: one preprocessing invocation on a fresh frame with
columns A, B, C, G mutates the frame of the caller — a `present` column is added
and the category columns are rewritten to categorical dtype, so a second
invocation does not see the input the first one saw. -/
theorem preprocess_mutates_caller_frame_example :
    preprocess_frame_effect ⟨["A", "B", "C", "G"], [⟨1, 1, 1, 1⟩], []⟩ "A" "B" "C" "G" [1] [1]
      ≠ ⟨["A", "B", "C", "G"], [⟨1, 1, 1, 1⟩], []⟩ ∧
    (preprocess_frame_effect ⟨["A", "B", "C", "G"], [⟨1, 1, 1, 1⟩], []⟩
        "A" "B" "C" "G" [1] [1]).cols
      = ["A", "B", "C", "G", "present"] := by
  decide

/-- C10 (amended): the dice-plot preprocessing is NOT purely functional with
respect to the table of the caller: it preserves the row values but appends a
`present` column (when none exists yet) and rewrites the dtypes of the
category columns in place, so the mutated frame differs from the input. -/
theorem preprocess_frame_mutation (d : DFrame) (aN bN cN gN : String)
    (cKeys gKeys : List Nat) (h : "present" ∉ d.cols) :
    (preprocess_frame_effect d aN bN cN gN cKeys gKeys).rows = d.rows ∧
    (preprocess_frame_effect d aN bN cN gN cKeys gKeys).cols = d.cols ++ ["present"] ∧
    preprocess_frame_effect d aN bN cN gN cKeys gKeys ≠ d := by
  refine ⟨rfl, ?_, ?_⟩
  · unfold preprocess_frame_effect add_present_column prepare_data_mut
    simp [h]
  · intro heq
    have hcols := congrArg DFrame.cols heq
    unfold preprocess_frame_effect add_present_column prepare_data_mut at hcols
    simp [h] at hcols

/-- C10 witness: the amended statement at a concrete fresh frame. -/
theorem preprocess_frame_mutation_witness :
    (preprocess_frame_effect ⟨["A", "B", "C", "G"], [⟨1, 1, 1, 1⟩], []⟩
        "A" "B" "C" "G" [1] [1]).rows = [⟨1, 1, 1, 1⟩] ∧
    (preprocess_frame_effect ⟨["A", "B", "C", "G"], [⟨1, 1, 1, 1⟩], []⟩
        "A" "B" "C" "G" [1] [1]).cols = ["A", "B", "C", "G"] ++ ["present"] ∧
    preprocess_frame_effect ⟨["A", "B", "C", "G"], [⟨1, 1, 1, 1⟩], []⟩
        "A" "B" "C" "G" [1] [1] ≠ ⟨["A", "B", "C", "G"], [⟨1, 1, 1, 1⟩], []⟩ :=
  preprocess_frame_mutation ⟨["A", "B", "C", "G"], [⟨1, 1, 1, 1⟩], []⟩
    "A" "B" "C" "G" [1] [1] (by decide)

/-! ## C9: Quantitative Encoder -/

theorem le_foldl_max (l : List ℚ) (a : ℚ) : a ≤ l.foldl max a := by
  induction l generalizing a with
  | nil => simp
  | cons x xs ih => exact le_trans (le_max_left a x) (ih (max a x))

theorem foldl_max_le (l : List ℚ) (a b : ℚ) (ha : a ≤ b) (hl : ∀ v ∈ l, v ≤ b) :
    l.foldl max a ≤ b := by
  induction l generalizing a with
  | nil => simpa
  | cons x xs ih =>
    exact ih (max a x) (max_le ha (hl x (List.mem_cons_self ..)))
      (fun v hv => hl v (List.mem_cons_of_mem _ hv))

theorem foldl_min_le (l : List ℚ) (a : ℚ) : l.foldl min a ≤ a := by
  induction l generalizing a with
  | nil => simp
  | cons x xs ih => exact le_trans (ih (min a x)) (min_le_left a x)

theorem listMin_le_listMax (l : List ℚ) : listMin l ≤ listMax l := by
  cases l with
  | nil => simp [listMin, listMax]
  | cons x xs =>
    exact le_trans (foldl_min_le xs x) (le_foldl_max xs x)

theorem norm01_nonneg (lo hi v : ℚ) : 0 ≤ norm01 lo hi v := by
  unfold norm01 clamp01
  split
  · norm_num
  · exact le_max_left 0 _

theorem norm01_le_one (lo hi v : ℚ) : norm01 lo hi v ≤ 1 := by
  unfold norm01 clamp01
  split
  · exact le_refl 1
  · exact max_le (by norm_num) (min_le_left 1 _)

theorem norm01_mono (lo hi v w : ℚ) (hvw : v ≤ w) : norm01 lo hi v ≤ norm01 lo hi w := by
  unfold norm01 clamp01
  split
  · exact le_refl 1
  · rename_i hlt
    have hpos : 0 < hi - lo := by
      rw [not_le] at hlt
      linarith
    have hdiv : (v - lo) / (hi - lo) ≤ (w - lo) / (hi - lo) := by
      apply div_le_div_of_nonneg_right ?_ hpos.le
      linarith
    exact max_le_max (le_refl 0) (min_le_min (le_refl 1) hdiv)

theorem norm01_eq_one_of_ge (lo hi v : ℚ) (hv : hi ≤ v) : norm01 lo hi v = 1 := by
  unfold norm01 clamp01
  split
  · rfl
  · rename_i hlt
    have hpos : 0 < hi - lo := by
      rw [not_le] at hlt
      linarith
    have h1 : (1 : ℚ) ≤ (v - lo) / (hi - lo) := by
      rw [le_div_iff₀ hpos]
      linarith
    rw [min_eq_left h1]
    exact max_eq_right (by norm_num)

/-- C9: the size mapping of the Quantitative Encoder (modelled from the spec, with
`-log10` abstracted as an arbitrary antitone transform `nl` and `eps` the
smallest representable positive value) is non-increasing as the p-value
increases, always lies within `[minS, maxS]`, and maps the p-value 0 to
exactly `maxS` — maximal significance, not an error. -/
theorem quantitative_encoder_ok (nl : ℚ → ℚ) (eps minS maxS : ℚ) (ps : List ℚ)
    (hnl : ∀ x y : ℚ, x ≤ y → nl y ≤ nl x) (hms : minS ≤ maxS) (heps : 0 ≤ eps) :
    (∀ p q : ℚ, p ≤ q →
      dominoSize nl eps minS maxS ps q ≤ dominoSize nl eps minS maxS ps p) ∧
    (∀ p : ℚ, minS ≤ dominoSize nl eps minS maxS ps p ∧
      dominoSize nl eps minS maxS ps p ≤ maxS) ∧
    dominoSize nl eps minS maxS ps 0 = maxS := by
  have hms' : (0 : ℚ) ≤ maxS - minS := by linarith
  refine ⟨?_, ?_, ?_⟩
  · intro p q hpq
    simp only [dominoSize]
    have hclamp : clampPos eps p ≤ clampPos eps q := max_le_max hpq (le_refl eps)
    have hv : nl (clampPos eps q) ≤ nl (clampPos eps p) := hnl _ _ hclamp
    have hmono := norm01_mono (listMin (ps.map (fun r => nl (clampPos eps r))))
      (listMax (ps.map (fun r => nl (clampPos eps r)))) _ _ hv
    have := mul_le_mul_of_nonneg_left hmono hms'
    linarith
  · intro p
    simp only [dominoSize]
    have h0 := norm01_nonneg (listMin (ps.map (fun r => nl (clampPos eps r))))
      (listMax (ps.map (fun r => nl (clampPos eps r)))) (nl (clampPos eps p))
    have h1 := norm01_le_one (listMin (ps.map (fun r => nl (clampPos eps r))))
      (listMax (ps.map (fun r => nl (clampPos eps r)))) (nl (clampPos eps p))
    constructor
    · nlinarith
    · nlinarith
  · simp only [dominoSize]
    have hzero : clampPos eps 0 = eps := max_eq_right heps
    have hub : ∀ w ∈ ps.map (fun r => nl (clampPos eps r)), w ≤ nl eps := by
      intro w hw
      rcases List.mem_map.1 hw with ⟨r, _, rfl⟩
      exact hnl _ _ (le_max_right r eps)
    have h1 : norm01 (listMin (ps.map (fun r => nl (clampPos eps r))))
        (listMax (ps.map (fun r => nl (clampPos eps r)))) (nl (clampPos eps 0)) = 1 := by
      rw [hzero]
      cases hv : ps.map (fun r => nl (clampPos eps r)) with
      | nil => unfold norm01; simp [listMin, listMax]
      | cons x xs =>
        apply norm01_eq_one_of_ge
        show listMax (x :: xs) ≤ nl eps
        unfold listMax
        refine foldl_max_le xs x (nl eps) ?_ ?_
        · exact hub x (by rw [hv]; exact List.mem_cons_self ..)
        · intro v hv2
          exact hub v (by rw [hv]; exact List.mem_cons_of_mem _ hv2)
    rw [h1]
    ring

/-- C9 witness: the encoder at the antitone transform `-x`, `eps = 1`, size
bounds `[1, 5]` and the observed p-values `[2, 3, 0]`. -/
theorem quantitative_encoder_ok_witness :
    dominoSize (fun x : ℚ => -x) 1 1 5 [2, 3, 0] 0 = 5 ∧
    dominoSize (fun x : ℚ => -x) 1 1 5 [2, 3, 0] 3 ≤
      dominoSize (fun x : ℚ => -x) 1 1 5 [2, 3, 0] 2 ∧
    1 ≤ dominoSize (fun x : ℚ => -x) 1 1 5 [2, 3, 0] 2 ∧
    dominoSize (fun x : ℚ => -x) 1 1 5 [2, 3, 0] 2 ≤ 5 := by
  have h := quantitative_encoder_ok (fun x : ℚ => -x) 1 1 5 [2, 3, 0]
    (fun x y hxy => neg_le_neg hxy) (by norm_num) (by norm_num)
  exact ⟨h.2.2, h.1 2 3 (by norm_num), (h.2.1 2).1, (h.2.1 2).2⟩

end PyDicePlot
